import Mathlib

/-!
Verification of the DHL_Inventory_Project dashboard (src/Deployement/app.py)
against its natural-language specification.

The program is a linear pandas pipeline: a dataset builder (fetch, drop
columns, impute, parse dates, derive lead time, normalize names, derive a
month bucket) followed by a filter-and-aggregate report engine.  We embed it
shallowly:

* the dataset builder works on an untyped column-oriented table
  (`Table = List Column`, each `Column` a name, a dtype tag, and a list of
  `Cell`s), mirroring the dataframe operations of `build_dataset`
  (app.py lines 20-72);
* the report engine works on a typed `Record` mirroring the cleaned columns
  that tabs 1-3 read (app.py lines 94-281).

Numbers are modelled as `Rat` (the idealization of the source's int64/float64
values), timestamps as minutes since an epoch (`Int`), so that
`(shipping_date - order_date).dt.days` becomes floor division by 1440.
Missing values (NaN/NaT/None) are the `Cell.null` constructor; the float NaN
that pandas produces for the mean of an empty series is the `MetricValue.nan`
constructor.  The external datetime library (`pd.to_datetime`,
`.dt.to_period`) is injected as a `DatetimeLib` parameter: the pipeline's
behaviour is proved for every such library.
-/

/-- One dataframe cell: missing (`NaN`/`NaT`/`None`), a string, a number,
a parsed timestamp (minutes since epoch), or a month period. -/
inductive Cell where
  | null
  | str (s : String)
  | num (q : Rat)
  | date (t : Int)
  | period (m : Int)
deriving DecidableEq, Repr

/-- Pandas dtype classes that `build_dataset` dispatches on:
`select_dtypes(np.number)` picks `numT` columns, `select_dtypes("object")`
picks `objT` columns, everything else is `otherT`. -/
inductive DType where
  | numT
  | objT
  | otherT
deriving DecidableEq, Repr

/-- A named dataframe column. -/
structure Column where
  name : String
  dtype : DType
  cells : List Cell
deriving DecidableEq, Repr

/-- A dataframe: a list of named columns. -/
abbrev Table := List Column

/-- Errors a build attempt can surface (Python exceptions). -/
inductive BuildError where
  | nameError (missing : String)
  | httpError
  | parseError
  | keyError (key : String)
  | emptyModeKeyError (col : String)
deriving DecidableEq, Repr

/-- Outcome of the remote transfer that `load_raw` attempts: the file
arrives and parses as parquet, the transfer fails (non-2xx status), or the
content is not parseable as the expected tabular format. -/
inductive FetchOutcome where
  | success (t : Table)
  | transferIncomplete
  | notParquet
deriving DecidableEq, Repr

/-- Embedding of `load_raw` (app.py lines 12-18).  The module imports only
`streamlit`, `pandas` and `numpy` (lines 1-3); the names `requests`
(line 15) and `io` (line 17) are unbound, so evaluating the body raises
`NameError: name 'requests' is not defined` before any transfer is
attempted, whatever the remote side would have done. -/
def load_raw (_outcome : FetchOutcome) : Except BuildError Table :=
  .error (.nameError "requests")

/-- The fixed drop list of `build_dataset` (app.py lines 25-29). -/
def drop_cols : List String :=
  ["Customer Password", "Customer Street", "Customer Zipcode",
   "Order zipcode", "Product Image", "Product Description",
   "Product Card Id"]

/-- `df.drop(columns=[c for c in drop_cols if c in df.columns])`
(app.py line 30): tolerant drop of the fixed column list. -/
def dropCols (t : Table) : Table :=
  t.filter (fun c => ¬ drop_cols.contains c.name)

/-- `Series.ffill`: each missing cell is replaced by the last preceding
non-missing cell, if any (`last` carries it). -/
def ffillGo (last : Option Cell) : List Cell → List Cell
  | [] => []
  | .null :: rest => (last.getD .null) :: ffillGo last rest
  | c :: rest => c :: ffillGo (some c) rest

/-- `Series.ffill` from an empty history. -/
def ffill (cs : List Cell) : List Cell :=
  ffillGo none cs

/-- `Series.fillna(v)` with a scalar `v`: replace every missing cell. -/
def fillConst (v : Cell) (cs : List Cell) : List Cell :=
  cs.map (fun c => if c = .null then v else c)

/-- Numeric imputation of `build_dataset` (app.py lines 33-36):
`df_clean[c] = df_clean[c].ffill().fillna(0)` for every numeric column. -/
def imputeNums (t : Table) : Table :=
  t.map (fun c =>
    if c.dtype = .numT then { c with cells := fillConst (.num 0) (ffill c.cells) }
    else c)

/-- The non-missing string values of a column, in order (what
`Series.mode` counts: NaN is ignored). -/
def nonNullStrs (cs : List Cell) : List String :=
  cs.filterMap (fun c => match c with | .str s => some s | _ => none)

/-- Smallest element of a list of strings (Python/pandas string order is
lexicographic on code points, as is Lean's `<` on `String`). -/
def leastStr : List String → Option String
  | [] => none
  | x :: xs => some (xs.foldl (fun a b => if b < a then b else a) x)

/-- `Series.mode()[0]`: `mode()` returns the most frequent non-missing
values sorted ascending, and `[0]` takes the first, i.e. the smallest
most-frequent value; `none` when there is no non-missing value (then the
real `[0]` raises `KeyError: 0` on the empty mode series). -/
def modeHead (cs : List Cell) : Option String :=
  let vs := nonNullStrs cs
  let cands := vs.dedup
  let maxCnt := (cands.map (fun v => vs.count v)).foldr max 0
  leastStr (cands.filter (fun v => vs.count v = maxCnt))

/-- Categorical imputation of one column (app.py line 40):
`df_clean[c] = df_clean[c].fillna(df_clean[c].mode()[0])`.  On a column with
no non-missing value, `mode()` is empty and `[0]` raises `KeyError`. -/
def imputeCatCol (c : Column) : Except BuildError Column :=
  match modeHead c.cells with
  | none => .error (.emptyModeKeyError c.name)
  | some m => .ok { c with cells := fillConst (.str m) c.cells }

/-- Categorical imputation of `build_dataset` (app.py lines 38-40): the
mode fill is applied to every object column in turn; the first failing
column aborts the build with its exception. -/
def imputeCats : Table → Except BuildError Table
  | [] => .ok []
  | c :: rest => do
      let c' ← if c.dtype = .objT then imputeCatCol c else .ok c
      let rest' ← imputeCats rest
      .ok (c' :: rest')

/-- The external datetime functionality of pandas, injected: `toDatetime`
is `pd.to_datetime(·, errors="coerce")` on one cell (producing a timestamp
in minutes, or `none` for NaT on unparseable input), `toPeriodM` is
`Timestamp.to_period("M")` (the month bucket of a timestamp). -/
structure DatetimeLib where
  toDatetime : Cell → Option Int
  toPeriodM : Int → Int

/-- `df_clean[name]`: column lookup; a missing column raises `KeyError`. -/
def getCol (t : Table) (name : String) : Except BuildError Column :=
  match t.find? (fun c => c.name = name) with
  | none => .error (.keyError name)
  | some c => .ok c

/-- `df_clean[name] = col`: overwrite the column of that name if present,
else append it. -/
def setCol (t : Table) (col : Column) : Table :=
  if t.any (fun c => c.name = col.name) then
    t.map (fun c => if c.name = col.name then col else c)
  else
    t ++ [col]

/-- `pd.to_datetime(cells, errors="coerce")` as a cell list: unparseable
cells become NaT (`Cell.null`), parsed ones carry the timestamp. -/
def parseDates (lib : DatetimeLib) (cs : List Cell) : List Cell :=
  cs.map (fun c => match lib.toDatetime c with
    | none => .null
    | some t => .date t)

/-- One entry of the lead-time derivation (app.py lines 51-56):
`(shipping_date - order_date).dt.days` (whole days of the timestamp
difference, floor division of minutes by 1440), NaN where either date is
NaT, then `.fillna(days_for_shipping_real)`, then `.clip(lower=0)`. -/
def leadTimeCell (ship ord dfsr : Cell) : Cell :=
  let diffDays : Option Int :=
    match ship, ord with
    | .date s, .date o => some ((s - o).fdiv 1440)
    | _, _ => none
  match diffDays with
  | some d => .num (max 0 (d : Rat))
  | none =>
      match dfsr with
      | .num q => .num (max 0 q)
      | c => c

/-- The column-name normalization of `build_dataset` (app.py lines 59-65),
step by step.  `str.lower()`. -/
def pyLower (s : String) : String :=
  String.mk (s.data.map Char.toLower)

/-- Python regex `\s` (ASCII range, which is all that column names use). -/
def isPySpace (ch : Char) : Bool :=
  ch = ' ' ∨ ch = '\t' ∨ ch = '\n' ∨ ch = '\r' ∨ ch = '\x0b' ∨ ch = '\x0c'

/-- Python regex `\w` (ASCII range): letters, digits, underscore. -/
def isWordChar (ch : Char) : Bool :=
  ch.isAlphanum ∨ ch = '_'

/-- `.str.replace(r"[^\w\s]", "", regex=True)`: delete every character
that is neither a word character nor whitespace (i.e. strip punctuation). -/
def stripPunct (s : String) : String :=
  String.mk (s.data.filter (fun ch => isWordChar ch ∨ isPySpace ch))

/-- `.str.replace(" ", "_")`: every space becomes the join character. -/
def spacesToJoin (s : String) : String :=
  String.mk (s.data.map (fun ch => if ch = ' ' then '_' else ch))

/-- `.str.strip()`: trim leading and trailing whitespace. -/
def pyStrip (s : String) : String :=
  String.mk (((s.data.dropWhile isPySpace).reverse.dropWhile isPySpace).reverse)

/-- The whole normalization chain of app.py lines 59-65, in source order:
lower-case, strip punctuation, replace spaces with `_`, strip. -/
def normalizeName (s : String) : String :=
  pyStrip (spacesToJoin (stripPunct (pyLower s)))

/-- `df_clean.columns = df_clean.columns.str...` (app.py lines 59-65):
rename every column by `normalizeName`. -/
def renameCols (t : Table) : Table :=
  t.map (fun c => { c with name := normalizeName c.name })

/-- `df_clean["order_date"].dt.to_period("M")` (app.py line 70): the month
bucket of each parsed date; NaT stays missing. -/
def toMonthCells (lib : DatetimeLib) (cs : List Cell) : List Cell :=
  cs.map (fun c => match c with
    | .date t => .period (lib.toPeriodM t)
    | _ => .null)

/-- Stage A of `build_dataset` (app.py lines 24-40): drop the fixed column
list, impute numeric columns by ffill-then-zero, impute categorical columns
by mode substitution. -/
def dropAndImpute (df : Table) : Except BuildError Table :=
  imputeCats (imputeNums (dropCols df))

/-- Stage B of `build_dataset` (app.py lines 42-56): parse the two date
columns by their ORIGINAL names, derive `lead_time_days` with the
fillna/clip rule.  Runs before any renaming. -/
def deriveFields (lib : DatetimeLib) (t : Table) : Except BuildError Table := do
  let ordSrc ← getCol t "order date (DateOrders)"
  let t := setCol t ⟨"order_date", .otherT, parseDates lib ordSrc.cells⟩
  let shipSrc ← getCol t "shipping date (DateOrders)"
  let t := setCol t ⟨"shipping_date", .otherT, parseDates lib shipSrc.cells⟩
  let ordCol ← getCol t "order_date"
  let shipCol ← getCol t "shipping_date"
  let dfsr ← getCol t "Days for shipping (real)"
  let lead := List.zipWith3 leadTimeCell shipCol.cells ordCol.cells dfsr.cells
  return setCol t ⟨"lead_time_days", .numT, lead⟩

/-- Stage C of `build_dataset` (app.py lines 59-70): normalize all column
names, then derive `order_month` from the now-normalized `order_date`. -/
def renameAndMonth (lib : DatetimeLib) (t : Table) : Except BuildError Table := do
  let t := renameCols t
  let ordCol ← getCol t "order_date"
  return setCol t ⟨"order_month", .otherT, toMonthCells lib ordCol.cells⟩

/-- Embedding of `build_dataset` (app.py lines 20-72) applied to an
already-loaded raw table (the pipeline after `df = load_raw()`; `load_raw`
itself is modelled separately because it raises unconditionally).  Mirrors
the source statement by statement. -/
def build_dataset (lib : DatetimeLib) (df : Table) : Except BuildError Table := do
  let df_clean := dropCols df
  let df_clean := imputeNums df_clean
  let df_clean ← imputeCats df_clean
  let ordSrc ← getCol df_clean "order date (DateOrders)"
  let df_clean := setCol df_clean ⟨"order_date", .otherT, parseDates lib ordSrc.cells⟩
  let shipSrc ← getCol df_clean "shipping date (DateOrders)"
  let df_clean := setCol df_clean ⟨"shipping_date", .otherT, parseDates lib shipSrc.cells⟩
  let ordCol ← getCol df_clean "order_date"
  let shipCol ← getCol df_clean "shipping_date"
  let dfsr ← getCol df_clean "Days for shipping (real)"
  let lead := List.zipWith3 leadTimeCell shipCol.cells ordCol.cells dfsr.cells
  let df_clean := setCol df_clean ⟨"lead_time_days", .numT, lead⟩
  let df_clean := renameCols df_clean
  let ordCol2 ← getCol df_clean "order_date"
  return setCol df_clean ⟨"order_month", .otherT, toMonthCells lib ordCol2.cells⟩

/-!
## Filter & report engine (app.py lines 76-281)

The engine reads the cleaned table through a fixed set of typed columns; we
model one cleaned row as a `Record` and the table as a `List Record`.
-/

/-- One cleaned row, restricted to the fields the dashboard panels read. -/
structure Record where
  order_id : Nat
  order_region : String
  category_name : String
  customer_segment : String
  shipping_mode : String
  sales : Rat
  order_profit_per_order : Rat
  lead_time_days : Rat
  late_delivery_risk : Rat
  order_month : Int
deriving DecidableEq, Repr

/-- The filter mask and its application (app.py lines 94-99):
`df_clean["order_region"].isin(region_filter) & ... & ...`, then
`data = df_clean[mask]`. -/
def applyFilters (df_clean : List Record)
    (region_filter category_filter segment_filter : List String) : List Record :=
  df_clean.filter (fun r =>
    region_filter.contains r.order_region
    ∧ category_filter.contains r.category_name
    ∧ segment_filter.contains r.customer_segment)

/-- A scalar as `st.metric` receives it: a number, or the float NaN that
pandas produces e.g. for the mean of an empty series. -/
inductive MetricValue where
  | num (q : Rat)
  | nan
deriving DecidableEq, Repr

/-- Python's `round(x, ndigits)` (round half to even), idealized on `Rat`. -/
def pyRound (ndigits : Nat) (q : Rat) : Rat :=
  let scaled := q * (10 : Rat) ^ ndigits
  let f : Int := ⌊scaled⌋
  let r := scaled - (f : Rat)
  let n : Int :=
    if r < 1/2 then f
    else if 1/2 < r then f + 1
    else if f % 2 = 0 then f else f + 1
  (n : Rat) / (10 : Rat) ^ ndigits

/-- `round` applied to a possibly-NaN scalar: `round(nan, k)` is NaN. -/
def roundMetric (ndigits : Nat) (m : MetricValue) : MetricValue :=
  match m with
  | .nan => .nan
  | .num q => .num (pyRound ndigits q)

/-- `Series.sum` of a field over the filtered rows (sum of an empty series
is 0). -/
def sumBy (f : Record → Rat) (rows : List Record) : Rat :=
  (rows.map f).sum

/-- `Series.mean` of a field over the filtered rows: NaN when there are no
rows, the arithmetic mean otherwise. -/
def meanBy (f : Record → Rat) (rows : List Record) : MetricValue :=
  if rows.isEmpty then .nan
  else .num (sumBy f rows / (rows.length : Rat))

/-- KPI 1 (app.py line 125): `data['sales'].sum()`. -/
def totalSalesKpi (rows : List Record) : Rat :=
  sumBy (fun r => r.sales) rows

/-- KPI 2 (app.py line 130): `data['order_profit_per_order'].sum()`. -/
def totalProfitKpi (rows : List Record) : Rat :=
  sumBy (fun r => r.order_profit_per_order) rows

/-- KPI 3 (app.py line 135): `round(data["lead_time_days"].mean(), 2)`,
exactly the value handed to `st.metric`. -/
def avgLeadTimeKpi (rows : List Record) : MetricValue :=
  roundMetric 2 (meanBy (fun r => r.lead_time_days) rows)

/-- KPI 4 (app.py line 140): `round(data["late_delivery_risk"].mean(), 3)`,
exactly the value handed to `st.metric`. -/
def lateRiskKpi (rows : List Record) : MetricValue :=
  roundMetric 3 (meanBy (fun r => r.late_delivery_risk) rows)

/-- One row of the monthly trend (app.py lines 146-154). -/
structure MonthlyRow where
  order_month : Int
  total_sales : Rat
  avg_lead_time : MetricValue
  orders : Nat
deriving DecidableEq, Repr

/-- The distinct group keys produced by a pandas `groupby`, in ascending
key order (`groupby` sorts group keys by default). -/
def groupKeys [DecidableEq κ] (key : Record → κ) (ord : κ → κ → Bool)
    (rows : List Record) : List κ :=
  ((rows.map key).dedup).mergeSort ord

/-- `data.groupby("order_month").agg(total_sales=sum, avg_lead_time=mean,
orders=nunique)` (app.py lines 146-154): one row per observed month,
ascending. -/
def monthlyTrend (rows : List Record) : List MonthlyRow :=
  (groupKeys (fun r => r.order_month) (fun a b => a ≤ b) rows).map (fun m =>
    let grp := rows.filter (fun r => r.order_month = m)
    { order_month := m
      total_sales := sumBy (fun r => r.sales) grp
      avg_lead_time := meanBy (fun r => r.lead_time_days) grp
      orders := (grp.map (fun r => r.order_id)).dedup.length })

/-- The monthly-trend section of tab 1 (app.py lines 145-188):
`if not data.empty:` render the charts and snapshot, `else:` show the
"No data available for current filter selection." message (`none`). -/
def summaryTrendView (rows : List Record) : Option (List MonthlyRow) :=
  if rows.isEmpty then none else some (monthlyTrend rows)

/-- One row of the category × segment profitability table
(app.py lines 236-246). -/
structure CatSegRow where
  category_name : String
  customer_segment : String
  total_sales : Rat
  total_profit : Rat
  avg_margin : MetricValue
  orders : Nat
deriving DecidableEq, Repr

/-- String-pair ascending order, as `groupby(["category_name",
"customer_segment"])` sorts its keys. -/
def pairLe (a b : String × String) : Bool :=
  a.1 < b.1 ∨ (a.1 = b.1 ∧ a.2 ≤ b.2)

/-- `data.groupby(["category_name","customer_segment"]).agg(...)` with
`total_sales=sum(sales)`, `total_profit=sum(profit)`, `avg_margin=
mean(profit)`, `orders=nunique(order_id)`, rounded to 2 decimals
(app.py lines 236-246). -/
def cat_seg (rows : List Record) : List CatSegRow :=
  (groupKeys (fun r => (r.category_name, r.customer_segment)) pairLe rows).map
    (fun k =>
      let grp := rows.filter (fun r =>
        r.category_name = k.1 ∧ r.customer_segment = k.2)
      { category_name := k.1
        customer_segment := k.2
        total_sales := pyRound 2 (sumBy (fun r => r.sales) grp)
        total_profit := pyRound 2 (sumBy (fun r => r.order_profit_per_order) grp)
        avg_margin := roundMetric 2 (meanBy (fun r => r.order_profit_per_order) grp)
        orders := (grp.map (fun r => r.order_id)).dedup.length })

/-- The displayed table of app.py lines 249-252:
`cat_seg.sort_values("total_sales", ascending=False).head(15)`. -/
def top15CatSeg (rows : List Record) : List CatSegRow :=
  ((cat_seg rows).mergeSort (fun a b => b.total_sales ≤ a.total_sales)).take 15

/-!
## Auxiliary predicates and concrete sample data
-/

/-- `v` is a most frequent non-missing value of the column cells `cs`. -/
def IsMode (cs : List Cell) (v : String) : Prop :=
  v ∈ nonNullStrs cs ∧
    ∀ w ∈ nonNullStrs cs, (nonNullStrs cs).count w ≤ (nonNullStrs cs).count v

/-- A cell a numeric (int64/float64) column may hold: a number or NaN. -/
def numLike (c : Cell) : Bool :=
  match c with
  | .null => true
  | .num _ => true
  | _ => false

/-- A concrete datetime library for evaluating the pipeline on sample data:
date strings are day numbers, periods are 30-day buckets. -/
def sampleLib : DatetimeLib where
  toDatetime := fun c => match c with
    | .str s => (s.toInt?).map (fun d => d * 1440)
    | _ => none
  toPeriodM := fun t => t.fdiv 43200

/-- A small concrete raw table exercising the whole pipeline. -/
def sampleRaw : Table :=
  [⟨"order date (DateOrders)", .objT, [.str "1", .null]⟩,
   ⟨"shipping date (DateOrders)", .objT, [.str "4", .null]⟩,
   ⟨"Days for shipping (real)", .numT, [.num 2, .null]⟩,
   ⟨"Customer Segment", .objT, [.str "Consumer", .null]⟩,
   ⟨"Customer Password", .objT, [.str "s3cret", .str "pw"]⟩]

/-- A concrete cleaned record for exercising the filter and KPIs. -/
def rec1 : Record :=
  { order_id := 1
    order_region := "Europe"
    category_name := "Fishing"
    customer_segment := "Consumer"
    shipping_mode := "Standard Class"
    sales := 100
    order_profit_per_order := 10
    lead_time_days := 3
    late_delivery_risk := 0
    order_month := 5 }

/-!
## Theorems
-/

/-- C1 counterexample: on an empty filtered view the two mean KPIs handed to
`st.metric` (app.py lines 135 and 140) are the float NaN, not a "no data"
marker — `round(mean, k)` of an empty series is NaN and nothing guards the
KPI row. -/
theorem c1_empty_view_kpi_is_nan :
    avgLeadTimeKpi [] = MetricValue.nan ∧ lateRiskKpi [] = MetricValue.nan :=
  ⟨rfl, rfl⟩

/-- C1 (amended): on an empty filtered view the sum KPIs are 0 and the mean
KPIs evaluate to NaN, which is passed as-is to the metric display; only the
monthly-trend section (app.py lines 145-188) renders the
"No data available" message instead of its tables. -/
theorem c1_empty_view_kpis (rows : List Record) (h : rows = []) :
    totalSalesKpi rows = 0 ∧ totalProfitKpi rows = 0 ∧
    avgLeadTimeKpi rows = MetricValue.nan ∧ lateRiskKpi rows = MetricValue.nan ∧
    summaryTrendView rows = none := by
  subst h
  exact ⟨rfl, rfl, rfl, rfl, rfl⟩

/-- Witness for `c1_empty_view_kpis` at the empty view. -/
theorem c1_empty_view_kpis_witness :
    totalSalesKpi [] = 0 ∧ totalProfitKpi [] = 0 ∧
    avgLeadTimeKpi [] = MetricValue.nan ∧ lateRiskKpi [] = MetricValue.nan ∧
    summaryTrendView [] = none :=
  c1_empty_view_kpis [] rfl

/-- C2: a record is in the filtered view (app.py lines 94-99) iff it is in
the cleaned table and its region, category and segment each belong to the
corresponding selection set; an empty selection set for any dimension gives
an empty view. -/
theorem c2_filter_correct :
    (∀ (df : List Record) (rf cf sf : List String) (r : Record),
      r ∈ applyFilters df rf cf sf ↔
        r ∈ df ∧ r.order_region ∈ rf ∧ r.category_name ∈ cf ∧
          r.customer_segment ∈ sf)
    ∧ (∀ (df : List Record) (rf cf sf : List String),
        rf = [] ∨ cf = [] ∨ sf = [] → applyFilters df rf cf sf = []) := by
  constructor
  · intro df rf cf sf r
    simp [applyFilters, List.mem_filter]
  · intro df rf cf sf h
    rcases h with h | h | h <;> subst h <;>
      simp [applyFilters, List.filter_eq_nil_iff]

/-- Witness for `c2_filter_correct`: a concrete record passes a matching
filter, and an empty region selection empties the view. -/
theorem c2_filter_correct_witness :
    rec1 ∈ applyFilters [rec1] ["Europe"] ["Fishing"] ["Consumer"] ∧
    applyFilters [rec1] [] ["Fishing"] ["Consumer"] = [] :=
  ⟨(c2_filter_correct.1 [rec1] _ _ _ rec1).mpr
      ⟨by simp, by simp [rec1], by simp [rec1], by simp [rec1]⟩,
    c2_filter_correct.2 [rec1] [] _ _ (Or.inl rfl)⟩

/-- C3: `lead_time_days` (app.py lines 51-56) is the whole-day difference
`shipping_date - order_date` where both dates parsed; where the difference
is NaN (a missing date) the "Days for shipping (real)" value is substituted;
the result is clamped at 0.  Day 1 → day 4 gives 3; shipping before order
gives 0. -/
theorem c3_lead_time_rule :
    (∀ (s o : Int) (c : Cell),
      leadTimeCell (.date s) (.date o) c = .num (max 0 (((s - o).fdiv 1440 : Int) : Rat)))
    ∧ (∀ (ord : Cell) (q : Rat),
        leadTimeCell .null ord (.num q) = .num (max 0 q))
    ∧ (∀ (ship : Cell) (q : Rat),
        leadTimeCell ship .null (.num q) = .num (max 0 q))
    ∧ leadTimeCell (.date (4 * 1440)) (.date (1 * 1440)) .null = .num 3
    ∧ leadTimeCell (.date (1 * 1440)) (.date (4 * 1440)) (.num 5) = .num 0 := by
  refine ⟨fun s o c => rfl, fun ord q => ?_, fun ship q => ?_, ?_, ?_⟩
  · cases ord <;> rfl
  · cases ship <;> rfl
  · decide
  · decide

/-- C6 (code defect): `load_raw` (app.py lines 12-18) raises
`NameError: name 'requests' is not defined` on every invocation — the module
never imports `requests` or `io` — so even a transfer that would complete
and parse does not yield a dataset, contradicting the claim that a
successful fetch and parse proceeds without raising. -/
theorem c6_load_raw_always_raises :
    ∀ outcome : FetchOutcome, load_raw outcome = .error (.nameError "requests") :=
  fun _ => rfl

/-- C9: the cleaned table is a deterministic function of the raw table (and
of the injected datetime library): building twice from the same raw input
yields identical output. -/
theorem c9_build_deterministic :
    ∀ (lib : DatetimeLib) (df₁ df₂ : Table),
      df₁ = df₂ → build_dataset lib df₁ = build_dataset lib df₂ :=
  fun _ _ _ h => h ▸ rfl

/-- Witness for `c9_build_deterministic` on concrete sample data. -/
theorem c9_build_deterministic_witness :
    build_dataset sampleLib sampleRaw = build_dataset sampleLib sampleRaw :=
  c9_build_deterministic sampleLib sampleRaw sampleRaw rfl

/-- `Except` bind on a success, as an equation. -/
theorem except_bind_ok {ε α β : Type} (a : α) (f : α → Except ε β) :
    (Except.ok a : Except ε α) >>= f = f a := rfl

/-- `Except` bind on a failure, as an equation. -/
theorem except_bind_error {ε α β : Type} (e : ε) (f : α → Except ε β) :
    (Except.error e : Except ε α) >>= f = Except.error e := rfl

/-- A successful `getCol` returns a column of the table with the requested
name. -/
theorem getCol_ok {t : Table} {n : String} {c : Column}
    (h : getCol t n = .ok c) : c ∈ t ∧ c.name = n := by
  unfold getCol at h
  cases hf : t.find? (fun c => c.name = n) with
  | none => rw [hf] at h; cases h
  | some c0 =>
      rw [hf] at h
      cases h
      refine ⟨List.mem_of_find?_eq_some hf, ?_⟩
      have := List.find?_some hf
      simpa using this

/-- Every column of `setCol t col` is `col` itself or an untouched column
of `t` whose name differs from `col`'s. -/
theorem setCol_mem {t : Table} {col c : Column} (h : c ∈ setCol t col) :
    c = col ∨ (c ∈ t ∧ c.name ≠ col.name) := by
  unfold setCol at h
  by_cases ha : t.any (fun c => c.name = col.name)
  · rw [if_pos ha] at h
    obtain ⟨c0, hc0, heq⟩ := List.mem_map.mp h
    by_cases hn : c0.name = col.name
    · left; rw [if_pos hn] at heq; exact heq.symm
    · right
      rw [if_neg hn] at heq
      exact ⟨heq ▸ hc0, heq ▸ hn⟩
  · rw [if_neg ha] at h
    rcases List.mem_append.mp h with h | h
    · right
      refine ⟨h, ?_⟩
      intro hn
      exact ha (List.any_eq_true.mpr ⟨c, h, by simp [hn]⟩)
    · left; simpa using h

/-- C8: the "top 15 category x segment by sales" table
(app.py lines 236-252) has at most 15 rows and its rows are non-increasing
in `total_sales`. -/
theorem c8_top15_sorted :
    ∀ rows : List Record,
      (top15CatSeg rows).length ≤ 15 ∧
      List.Pairwise (fun a b : CatSegRow => b.total_sales ≤ a.total_sales)
        (top15CatSeg rows) := by
  intro rows
  refine ⟨List.length_take_le 15 _, ?_⟩
  have hs := @List.sorted_mergeSort CatSegRow
    (fun a b : CatSegRow => decide (b.total_sales ≤ a.total_sales))
    (fun a b c hab hbc => by
      simp only [decide_eq_true_eq] at *
      exact le_trans hbc hab)
    (fun a b => by
      simp only [Bool.or_eq_true, decide_eq_true_eq]
      exact le_total b.total_sales a.total_sales)
    (cat_seg rows)
  have hp := List.Pairwise.sublist (List.take_sublist 15 _) hs
  exact hp.imp (fun hab => of_decide_eq_true hab)

/-- The running minimum computed by `leastStr` is the seed or a list
element. -/
theorem foldlMin_mem : ∀ (xs : List String) (a : String),
    xs.foldl (fun a b => if b < a then b else a) a = a ∨
      xs.foldl (fun a b => if b < a then b else a) a ∈ xs
  | [], _ => Or.inl rfl
  | x :: xs, a => by
      simp only [List.foldl_cons]
      rcases foldlMin_mem xs (if x < a then x else a) with h | h
      · by_cases hx : x < a
        · right; rw [h, if_pos hx]; exact List.mem_cons_self x xs
        · left; rw [h, if_neg hx]
      · right; exact List.mem_cons_of_mem x h

/-- The running minimum computed by `leastStr` is a lower bound for the
seed and for every list element. -/
theorem foldlMin_le : ∀ (xs : List String) (a : String),
    xs.foldl (fun a b => if b < a then b else a) a ≤ a ∧
      ∀ x ∈ xs, xs.foldl (fun a b => if b < a then b else a) a ≤ x
  | [], a => ⟨le_refl a, by simp⟩
  | x :: xs, a => by
      simp only [List.foldl_cons]
      by_cases hx : x < a
      · simp only [if_pos hx]
        obtain ⟨h1, h2⟩ := foldlMin_le xs x
        refine ⟨le_trans h1 (le_of_lt hx), ?_⟩
        intro y hy
        rcases List.mem_cons.mp hy with rfl | hy
        · exact h1
        · exact h2 y hy
      · simp only [if_neg hx]
        obtain ⟨h1, h2⟩ := foldlMin_le xs a
        refine ⟨h1, ?_⟩
        intro y hy
        rcases List.mem_cons.mp hy with rfl | hy
        · exact le_trans h1 (le_of_not_lt hx)
        · exact h2 y hy

/-- `leastStr` returns a least element of a nonempty list. -/
theorem leastStr_spec {l : List String} {m : String} (h : leastStr l = some m) :
    m ∈ l ∧ ∀ x ∈ l, m ≤ x := by
  cases l with
  | nil => cases h
  | cons x xs =>
      simp only [leastStr, Option.some.injEq] at h
      subst h
      constructor
      · rcases foldlMin_mem xs x with h | h
        · rw [h]; exact List.mem_cons_self x xs
        · exact List.mem_cons_of_mem x h
      · intro y hy
        rcases List.mem_cons.mp hy with rfl | hy
        · exact (foldlMin_le xs y).1
        · exact (foldlMin_le xs x).2 y hy

/-- `leastStr` succeeds on any nonempty list. -/
theorem leastStr_isSome {l : List String} (h : l ≠ []) :
    ∃ m, leastStr l = some m := by
  cases l with
  | nil => exact absurd rfl h
  | cons x xs => exact ⟨_, rfl⟩

/-- Every member of a list of naturals is bounded by its `foldr max 0`. -/
theorem le_foldr_max : ∀ {l : List Nat} {x : Nat}, x ∈ l → x ≤ l.foldr max 0
  | a :: l, x, h => by
      rcases List.mem_cons.mp h with rfl | h
      · exact le_max_left _ _
      · exact le_trans (le_foldr_max h) (le_max_right _ _)

/-- The `foldr max 0` of a nonempty list of naturals is attained. -/
theorem foldr_max_mem : ∀ {l : List Nat}, l ≠ [] → l.foldr max 0 ∈ l
  | [a], _ => by simp
  | a :: b :: l, _ => by
      have ih := @foldr_max_mem (b :: l) (by simp)
      rcases le_total a ((b :: l).foldr max 0) with h | h
      · rw [List.foldr_cons, max_eq_right h]
        exact List.mem_cons_of_mem a ih
      · rw [List.foldr_cons, max_eq_left h]
        exact List.mem_cons_self a _

/-- `modeHead` returns the least most-frequent non-missing value of the
column: it is a mode, and it is below every mode. -/
theorem modeHead_spec {cs : List Cell} {m : String}
    (h : modeHead cs = some m) :
    IsMode cs m ∧ ∀ v, IsMode cs v → m ≤ v := by
  unfold modeHead at h
  set vs := nonNullStrs cs with hvs
  set maxCnt := ((vs.dedup.map (fun v => vs.count v)).foldr max 0) with hmax
  obtain ⟨hmem, hleast⟩ := leastStr_spec h
  obtain ⟨hmcand, hmcnt⟩ := List.mem_filter.mp hmem
  have hmcnt' : vs.count m = maxCnt := by simpa using hmcnt
  have hbound : ∀ w ∈ vs, vs.count w ≤ maxCnt := by
    intro w hw
    exact le_foldr_max (List.mem_map.mpr ⟨w, List.mem_dedup.mpr hw, rfl⟩)
  have hmode : IsMode cs m := by
    refine ⟨List.mem_dedup.mp hmcand, ?_⟩
    intro w hw
    rw [← hvs, hmcnt']
    exact hbound w hw
  refine ⟨hmode, ?_⟩
  intro v hv
  obtain ⟨hvmem, hvtop⟩ := hv
  rw [← hvs] at hvmem hvtop
  have hvcnt : vs.count v = maxCnt := by
    refine le_antisymm (hbound v hvmem) ?_
    have hne : vs.dedup.map (fun v => vs.count v) ≠ [] := by
      intro hnil
      have : vs.dedup = [] := by
        cases hd : vs.dedup with
        | nil => rfl
        | cons y ys => rw [hd] at hnil; cases hnil
      exact absurd (this ▸ hmcand) (List.not_mem_nil m)
    have hattain := foldr_max_mem hne
    obtain ⟨u, hu, hucnt⟩ := List.mem_map.mp hattain
    rw [← hmax] at hucnt
    rw [← hucnt]
    exact hvtop u (List.mem_dedup.mp hu)
  have hvfilter : v ∈ vs.dedup.filter (fun v => vs.count v = maxCnt) :=
    List.mem_filter.mpr ⟨List.mem_dedup.mpr hvmem, by simpa using hvcnt⟩
  exact hleast v hvfilter

/-- `modeHead` succeeds whenever the column has a non-missing value. -/
theorem modeHead_isSome {cs : List Cell} (h : nonNullStrs cs ≠ []) :
    ∃ m, modeHead cs = some m := by
  unfold modeHead
  apply leastStr_isSome
  intro hnil
  set vs := nonNullStrs cs with hvs
  have hdne : vs.dedup ≠ [] := by
    intro hd
    exact h ((List.dedup_eq_nil vs).mp hd)
  have hne : vs.dedup.map (fun v => vs.count v) ≠ [] := by
    intro hm
    exact hdne (List.map_eq_nil_iff.mp hm)
  have hattain := foldr_max_mem hne
  obtain ⟨u, hu, hucnt⟩ := List.mem_map.mp hattain
  have : u ∈ vs.dedup.filter
      (fun v => vs.count v = (vs.dedup.map (fun v => vs.count v)).foldr max 0) :=
    List.mem_filter.mpr ⟨hu, by simpa using hucnt⟩
  rw [hnil] at this
  exact absurd this (List.not_mem_nil u)

/-- C10: when a categorical column has ties for the most frequent value,
`mode()[0]` (app.py line 40) picks the smallest such value in string order,
and the imputation fills every missing entry with exactly that value. -/
theorem c10_mode_tie_break :
    (∀ (cs : List Cell) (m : String), modeHead cs = some m →
      IsMode cs m ∧ ∀ v, IsMode cs v → m ≤ v)
    ∧ (∀ (c c' : Column), imputeCatCol c = .ok c' →
        ∃ m, modeHead c.cells = some m ∧
          c'.cells = fillConst (.str m) c.cells) := by
  constructor
  · intro cs m h
    exact modeHead_spec h
  · intro c c' h
    unfold imputeCatCol at h
    cases hm : modeHead c.cells with
    | none => rw [hm] at h; cases h
    | some m => rw [hm] at h; cases h; exact ⟨m, rfl, rfl⟩

/-- Witness for `c10_mode_tie_break`: in the column `["b", "a"]` both
values are modes; the fill value is the smaller one, `"a"`. -/
theorem c10_mode_tie_break_witness :
    modeHead [Cell.str "b", Cell.str "a"] = some "a" ∧
    IsMode [Cell.str "b", Cell.str "a"] "a" := by
  have hab : ("a" : String) < "b" := String.lt_iff_toList_lt.mpr (by decide)
  have h : modeHead [Cell.str "b", Cell.str "a"]
      = some (if ("a" : String) < "b" then "a" else "b") := rfl
  rw [if_pos hab] at h
  exact ⟨h, (c10_mode_tie_break.1 _ "a" h).1⟩

/-- C5 counterexample: a raw table with an entirely missing categorical
column makes the whole build fail — `mode()` of the all-null column is
empty and `mode()[0]` raises `KeyError` (app.py line 40). -/
theorem c5_all_null_column_fails_build :
    build_dataset sampleLib [⟨"Product Status", .objT, [.null, .null]⟩]
      = .error (.emptyModeKeyError "Product Status") := by
  rfl

/-- C5 (amended): mode imputation succeeds on every table whose
categorical (object) columns each contain at least one non-missing value;
an entirely missing categorical column instead raises and aborts the
build. -/
theorem c5_impute_total (t : Table)
    (h : ∀ c ∈ t, c.dtype = .objT → nonNullStrs c.cells ≠ []) :
    ∃ t', imputeCats t = .ok t' := by
  induction t with
  | nil => exact ⟨[], rfl⟩
  | cons c rest ih =>
      obtain ⟨rest', hr⟩ := ih (fun c' hc' => h c' (List.mem_cons_of_mem _ hc'))
      by_cases hd : c.dtype = .objT
      · obtain ⟨m, hm⟩ := modeHead_isSome (h c (List.mem_cons_self _ _) hd)
        refine ⟨{ c with cells := fillConst (.str m) c.cells } :: rest', ?_⟩
        simp only [imputeCats, if_pos hd, imputeCatCol, hm, hr, except_bind_ok]
      · refine ⟨c :: rest', ?_⟩
        simp only [imputeCats, if_neg hd, hr, except_bind_ok]

/-- Witness for `c5_impute_total` on a concrete categorical column with a
missing entry. -/
theorem c5_impute_total_witness :
    ∃ t', imputeCats [⟨"Customer Segment", .objT, [.str "Consumer", .null]⟩]
      = .ok t' :=
  c5_impute_total _ (by decide)

/-- `Except` bind is associative. -/
theorem except_bind_assoc {ε α β γ : Type} (m : Except ε α)
    (f : α → Except ε β) (g : β → Except ε γ) :
    (m >>= f) >>= g = m >>= fun x => f x >>= g := by
  cases m <;> rfl

/-- `pure` in the `Except` monad is `Except.ok`. -/
theorem except_pure {ε α : Type} (a : α) :
    (pure a : Except ε α) = Except.ok a := rfl

/-- The monolithic `build_dataset` is exactly the staged pipeline:
drop-and-impute (original names), then derive dates and lead time (still
original names), then rename and add the month column. -/
theorem build_dataset_staged (lib : DatetimeLib) (df : Table) :
    build_dataset lib df =
      dropAndImpute df >>= fun t =>
        deriveFields lib t >>= fun t' => renameAndMonth lib t' := by
  simp only [build_dataset, dropAndImpute, deriveFields, renameAndMonth,
    except_bind_assoc, except_pure, except_bind_ok]

/-- C7: column-name normalization (app.py lines 59-65) lower-cases, strips
punctuation, turns spaces into underscores and trims whitespace, in that
order; it maps the dataset's original names to their canonical snake forms;
and in the pipeline it runs only after `order_date`, `shipping_date` and
`lead_time_days` have been derived from the original names. -/
theorem c7_name_normalization :
    (∀ s, normalizeName s = pyStrip (spacesToJoin (stripPunct (pyLower s))))
    ∧ (∀ t, renameCols t = t.map (fun c => { c with name := normalizeName c.name }))
    ∧ (∀ (lib : DatetimeLib) (df : Table),
        build_dataset lib df =
          dropAndImpute df >>= fun t =>
            deriveFields lib t >>= fun t' => renameAndMonth lib t')
    ∧ normalizeName "order date (DateOrders)" = "order_date_dateorders"
    ∧ normalizeName "shipping date (DateOrders)" = "shipping_date_dateorders"
    ∧ normalizeName "Days for shipping (real)" = "days_for_shipping_real"
    ∧ normalizeName "Customer Segment" = "customer_segment"
    ∧ normalizeName "Late_delivery_risk" = "late_delivery_risk"
    ∧ normalizeName "Order Region" = "order_region"
    ∧ normalizeName "Category Name" = "category_name"
    ∧ normalizeName "lead_time_days" = "lead_time_days" :=
  ⟨fun _ => rfl, fun _ => rfl, build_dataset_staged,
    by decide, by decide, by decide, by decide, by decide, by decide,
    by decide, by decide⟩

/-- Forward fill preserves any cell property that holds for `null` and for
every carried and incoming cell. -/
theorem ffillGo_preserve (P : Cell → Prop) (hnull : P .null) :
    ∀ (cs : List Cell) (last : Option Cell),
      (∀ c, last = some c → P c) → (∀ x ∈ cs, P x) →
      ∀ x ∈ ffillGo last cs, P x
  | [], _, _, _ => by intro x hx; cases hx
  | .null :: rest, last, hlast, hcs => by
      intro x hx
      simp only [ffillGo] at hx
      rcases List.mem_cons.mp hx with rfl | hx
      · cases last with
        | none => exact hnull
        | some c => exact hlast c rfl
      · exact ffillGo_preserve P hnull rest last hlast
          (fun y hy => hcs y (List.mem_cons_of_mem _ hy)) x hx
  | .str s :: rest, last, hlast, hcs => by
      intro x hx
      simp only [ffillGo] at hx
      rcases List.mem_cons.mp hx with rfl | hx
      · exact hcs _ (List.mem_cons_self _ _)
      · exact ffillGo_preserve P hnull rest (some (.str s))
          (fun c hc => by cases hc; exact hcs _ (List.mem_cons_self _ _))
          (fun y hy => hcs y (List.mem_cons_of_mem _ hy)) x hx
  | .num q :: rest, last, hlast, hcs => by
      intro x hx
      simp only [ffillGo] at hx
      rcases List.mem_cons.mp hx with rfl | hx
      · exact hcs _ (List.mem_cons_self _ _)
      · exact ffillGo_preserve P hnull rest (some (.num q))
          (fun c hc => by cases hc; exact hcs _ (List.mem_cons_self _ _))
          (fun y hy => hcs y (List.mem_cons_of_mem _ hy)) x hx
  | .date t :: rest, last, hlast, hcs => by
      intro x hx
      simp only [ffillGo] at hx
      rcases List.mem_cons.mp hx with rfl | hx
      · exact hcs _ (List.mem_cons_self _ _)
      · exact ffillGo_preserve P hnull rest (some (.date t))
          (fun c hc => by cases hc; exact hcs _ (List.mem_cons_self _ _))
          (fun y hy => hcs y (List.mem_cons_of_mem _ hy)) x hx
  | .period m :: rest, last, hlast, hcs => by
      intro x hx
      simp only [ffillGo] at hx
      rcases List.mem_cons.mp hx with rfl | hx
      · exact hcs _ (List.mem_cons_self _ _)
      · exact ffillGo_preserve P hnull rest (some (.period m))
          (fun c hc => by cases hc; exact hcs _ (List.mem_cons_self _ _))
          (fun y hy => hcs y (List.mem_cons_of_mem _ hy)) x hx

/-- Numeric imputation of a NaN-or-number column yields a column of
numbers only. -/
theorem fillConst_ffill_num {cs : List Cell}
    (h : ∀ x ∈ cs, numLike x = true) :
    ∀ x ∈ fillConst (.num 0) (ffill cs), ∃ q, x = Cell.num q := by
  intro x hx
  obtain ⟨y, hy, hxy⟩ := List.mem_map.mp hx
  have hyl : numLike y = true :=
    ffillGo_preserve (fun c => numLike c = true) rfl cs none
      (fun c hc => by cases hc) h y hy
  by_cases hn : y = Cell.null
  · rw [← hxy, if_pos hn]; exact ⟨0, rfl⟩
  · rw [← hxy, if_neg hn]
    cases y with
    | null => exact absurd rfl hn
    | num q => exact ⟨q, rfl⟩
    | str s => cases hyl
    | date t => cases hyl
    | period m => cases hyl

/-- Where each output column of `imputeCats` comes from: the input column
of the same name and dtype, unchanged unless it is an object column, in
which case its missing cells were filled with some constant. -/
theorem imputeCats_mem :
    ∀ {t t' : Table}, imputeCats t = .ok t' →
      ∀ c' ∈ t', ∃ c ∈ t, c'.name = c.name ∧ c'.dtype = c.dtype ∧
        (c.dtype ≠ .objT → c' = c) ∧
        (c.dtype = .objT → ∃ m, c'.cells = fillConst (.str m) c.cells)
  | [], t', h => by
      cases h
      intro c' hc'
      cases hc'
  | c :: rest, t', h => by
      intro c' hc'
      rw [imputeCats] at h
      by_cases hd : c.dtype = .objT
      · rw [if_pos hd] at h
        cases hic : imputeCatCol c with
        | error e => rw [hic, except_bind_error] at h; cases h
        | ok c1 =>
            rw [hic, except_bind_ok] at h
            cases hrest : imputeCats rest with
            | error e => simp only [hrest, except_bind_error] at h; cases h
            | ok rest' =>
                simp only [hrest, except_bind_ok, Except.ok.injEq] at h
                subst h
                unfold imputeCatCol at hic
                cases hm : modeHead c.cells with
                | none => rw [hm] at hic; cases hic
                | some m =>
                    rw [hm] at hic
                    cases hic
                    rcases List.mem_cons.mp hc' with hceq | hc'
                    · refine ⟨c, List.mem_cons_self _ _, ?_, ?_,
                        fun hne => absurd hd hne, fun _ => ⟨m, ?_⟩⟩ <;>
                        rw [hceq]
                    · obtain ⟨c0, hc0, hrest'⟩ := imputeCats_mem hrest c' hc'
                      exact ⟨c0, List.mem_cons_of_mem _ hc0, hrest'⟩
      · rw [if_neg hd, except_bind_ok] at h
        cases hrest : imputeCats rest with
        | error e => simp only [hrest, except_bind_error] at h; cases h
        | ok rest' =>
            simp only [hrest, except_bind_ok, Except.ok.injEq] at h
            subst h
            rcases List.mem_cons.mp hc' with hceq | hc'
            · exact ⟨c, List.mem_cons_self _ _, by rw [hceq], by rw [hceq],
                fun _ => hceq, fun ho => absurd ho hd⟩
            · obtain ⟨c0, hc0, hrest'⟩ := imputeCats_mem hrest c' hc'
              exact ⟨c0, List.mem_cons_of_mem _ hc0, hrest'⟩

/-- Every column of the drop-and-impute stage descends from a raw column
of the same name. -/
theorem dropAndImpute_names {df t : Table} (h : dropAndImpute df = .ok t) :
    ∀ c ∈ t, ∃ c0 ∈ df, c.name = c0.name := by
  intro c hc
  obtain ⟨c1, hc1, hname, _⟩ := imputeCats_mem h c hc
  obtain ⟨c0, hc0, hc10⟩ := List.mem_map.mp hc1
  refine ⟨c0, (List.mem_filter.mp hc0).1, ?_⟩
  rw [hname, ← hc10]
  by_cases hd : c0.dtype = .numT
  · rw [if_pos hd]
  · rw [if_neg hd]

/-- If the raw "Days for shipping (real)" column is numeric with
NaN-or-number cells, then after drop-and-impute every column of that name
holds numbers only. -/
theorem dropAndImpute_dfsr {df t : Table} (h : dropAndImpute df = .ok t)
    (h1 : ∀ c ∈ df, c.name = "Days for shipping (real)" →
      c.dtype = .numT ∧ ∀ x ∈ c.cells, numLike x = true) :
    ∀ c ∈ t, c.name = "Days for shipping (real)" →
      ∀ x ∈ c.cells, ∃ q, x = Cell.num q := by
  intro c hc hname
  obtain ⟨c1, hc1, hn1, hd1, hkeep, _⟩ := imputeCats_mem h c hc
  obtain ⟨c0, hc0, hc10⟩ := List.mem_map.mp hc1
  have hc0df : c0 ∈ df := (List.mem_filter.mp hc0).1
  have hn0 : c0.name = "Days for shipping (real)" := by
    rw [← hname, hn1, ← hc10]
    by_cases hd : c0.dtype = .numT
    · rw [if_pos hd]
    · rw [if_neg hd]
  obtain ⟨hdt, hcells⟩ := h1 c0 hc0df hn0
  have hc1eq : c1 = { c0 with cells := fillConst (.num 0) (ffill c0.cells) } := by
    rw [← hc10, if_pos hdt]
  have hckeep : c = c1 := by
    apply hkeep
    rw [hc1eq]
    simp only
    rw [hdt]
    intro hcon
    cases hcon
  rw [hckeep, hc1eq]
  exact fillConst_ffill_num hcells

/-- Every lead-time cell produced by `leadTimeCell` from an all-number
"Days for shipping (real)" column is a number that is at least 0. -/
theorem zipWith3_lead_nonneg :
    ∀ (as bs ds : List Cell), (∀ d ∈ ds, ∃ q, d = Cell.num q) →
      ∀ x ∈ List.zipWith3 leadTimeCell as bs ds, ∃ q, x = Cell.num q ∧ 0 ≤ q
  | [], _, _, _ => by intro x hx; simp [List.zipWith3] at hx
  | _ :: _, [], _, _ => by intro x hx; simp [List.zipWith3] at hx
  | _ :: _, _ :: _, [], _ => by intro x hx; simp [List.zipWith3] at hx
  | a :: as, b :: bs, d :: ds, hd => by
      intro x hx
      rcases List.mem_cons.mp (by simpa [List.zipWith3] using hx) with hx1 | hx2
      · obtain ⟨q, hq⟩ := hd d (List.mem_cons_self _ _)
        subst hq
        subst hx1
        cases a <;> cases b <;> exact ⟨_, rfl, le_max_left 0 _⟩
      · exact zipWith3_lead_nonneg as bs ds
          (fun y hy => hd y (List.mem_cons_of_mem _ hy)) x hx2

/-- What `deriveFields` guarantees: on success, every column named
`lead_time_days` holds only numbers at least 0 (given an all-number
"Days for shipping (real)" column), and every other column is one of the
two date columns or came through from the input table. -/
theorem deriveFields_spec {lib : DatetimeLib} {t t2 : Table}
    (h : deriveFields lib t = .ok t2)
    (hd : ∀ c ∈ t, c.name = "Days for shipping (real)" →
      ∀ x ∈ c.cells, ∃ q, x = Cell.num q) :
    ∀ c ∈ t2,
      (c.name = "lead_time_days" →
        ∀ x ∈ c.cells, ∃ q, x = Cell.num q ∧ 0 ≤ q) ∧
      (c.name ≠ "lead_time_days" →
        c.name = "order_date" ∨ c.name = "shipping_date" ∨ c ∈ t) := by
  unfold deriveFields at h
  cases hg1 : getCol t "order date (DateOrders)" with
  | error e => simp only [hg1, except_bind_error] at h; cases h
  | ok ordSrc =>
  simp only [hg1, except_bind_ok] at h
  cases hg2 : getCol (setCol t ⟨"order_date", .otherT, parseDates lib ordSrc.cells⟩)
      "shipping date (DateOrders)" with
  | error e => simp only [hg2, except_bind_error] at h; cases h
  | ok shipSrc =>
  simp only [hg2, except_bind_ok] at h
  cases hg3 : getCol
      (setCol (setCol t ⟨"order_date", .otherT, parseDates lib ordSrc.cells⟩)
        ⟨"shipping_date", .otherT, parseDates lib shipSrc.cells⟩) "order_date" with
  | error e => simp only [hg3, except_bind_error] at h; cases h
  | ok ordCol =>
  simp only [hg3, except_bind_ok] at h
  cases hg4 : getCol
      (setCol (setCol t ⟨"order_date", .otherT, parseDates lib ordSrc.cells⟩)
        ⟨"shipping_date", .otherT, parseDates lib shipSrc.cells⟩) "shipping_date" with
  | error e => simp only [hg4, except_bind_error] at h; cases h
  | ok shipCol =>
  simp only [hg4, except_bind_ok] at h
  cases hg5 : getCol
      (setCol (setCol t ⟨"order_date", .otherT, parseDates lib ordSrc.cells⟩)
        ⟨"shipping_date", .otherT, parseDates lib shipSrc.cells⟩)
      "Days for shipping (real)" with
  | error e => simp only [hg5, except_bind_error] at h; cases h
  | ok dfsr =>
  simp only [hg5, except_bind_ok, except_pure, Except.ok.injEq] at h
  subst h
  have hdfsr : ∀ x ∈ dfsr.cells, ∃ q, x = Cell.num q := by
    obtain ⟨hmem, hname⟩ := getCol_ok hg5
    rcases setCol_mem hmem with hceq | ⟨hmem1, _⟩
    · rw [hceq] at hname
      have hname' : ("shipping_date" : String) = "Days for shipping (real)" := hname
      exact absurd hname' (by decide)
    · rcases setCol_mem hmem1 with hceq | ⟨hmem2, _⟩
      · rw [hceq] at hname
        have hname' : ("order_date" : String) = "Days for shipping (real)" := hname
        exact absurd hname' (by decide)
      · exact hd dfsr hmem2 hname
  intro c hc
  rcases setCol_mem hc with hceq | ⟨hcmem, hcname⟩
  · constructor
    · intro _ x hx
      rw [hceq] at hx
      exact zipWith3_lead_nonneg shipCol.cells ordCol.cells dfsr.cells hdfsr x hx
    · intro hne
      rw [hceq] at hne
      exact absurd rfl hne
  · have hlead : c.name ≠ "lead_time_days" := hcname
    refine ⟨fun hn => absurd hn hlead, fun _ => ?_⟩
    rcases setCol_mem hcmem with hceq | ⟨hcmem1, _⟩
    · right; left; rw [hceq]
    · rcases setCol_mem hcmem1 with hceq | ⟨hcmem2, _⟩
      · left; rw [hceq]
      · right; right; exact hcmem2

/-- C4: in any successfully built cleaned table whose raw
"Days for shipping (real)" column is numeric (and no other raw column name
normalizes to `lead_time_days`), every `lead_time_days` entry is a number
greater than or equal to zero. -/
theorem c4_lead_time_nonneg :
    ∀ (lib : DatetimeLib) (df out : Table),
      (∀ c ∈ df, c.name = "Days for shipping (real)" →
        c.dtype = DType.numT ∧ ∀ x ∈ c.cells, numLike x = true) →
      (∀ c ∈ df, normalizeName c.name = "lead_time_days" →
        c.name = "lead_time_days") →
      build_dataset lib df = .ok out →
      ∀ c ∈ out, c.name = "lead_time_days" →
        ∀ x ∈ c.cells, ∃ q, x = Cell.num q ∧ 0 ≤ q := by
  intro lib df out h1 h2 hb
  rw [build_dataset_staged] at hb
  cases hA : dropAndImpute df with
  | error e => simp only [hA, except_bind_error] at hb; cases hb
  | ok t =>
  simp only [hA, except_bind_ok] at hb
  cases hB : deriveFields lib t with
  | error e => simp only [hB, except_bind_error] at hb; cases hb
  | ok t2 =>
  simp only [hB, except_bind_ok] at hb
  unfold renameAndMonth at hb
  cases hC : getCol (renameCols t2) "order_date" with
  | error e => simp only [hC, except_bind_error] at hb; cases hb
  | ok ordc =>
  simp only [hC, except_bind_ok, except_pure, Except.ok.injEq] at hb
  subst hb
  intro c hc hname x hx
  rcases setCol_mem hc with hceq | ⟨hcr, _⟩
  · rw [hceq] at hname
    have hname' : ("order_month" : String) = "lead_time_days" := hname
    exact absurd hname' (by decide)
  · obtain ⟨c2, hc2, hcdef⟩ := List.mem_map.mp hcr
    have hnorm : normalizeName c2.name = "lead_time_days" := by
      rw [← hcdef] at hname
      exact hname
    have hspec := deriveFields_spec hB (dropAndImpute_dfsr hA h1) c2 hc2
    by_cases hl : c2.name = "lead_time_days"
    · have hcells : c.cells = c2.cells := by rw [← hcdef]
      exact hspec.1 hl x (hcells ▸ hx)
    · exfalso
      rcases hspec.2 hl with ho | hs | hmem
      · rw [ho] at hnorm; exact absurd hnorm (by decide)
      · rw [hs] at hnorm; exact absurd hnorm (by decide)
      · obtain ⟨c0, hc0, hname0⟩ := dropAndImpute_names hA c2 hmem
        have hc0lead := h2 c0 hc0 (by rw [← hname0]; exact hnorm)
        exact hl (by rw [hname0]; exact hc0lead)

/-- Witness for `c4_lead_time_nonneg`: the sample raw table builds
successfully and its lead-time column is everywhere a number at least 0. -/
theorem c4_lead_time_nonneg_witness :
    ∃ out, build_dataset sampleLib sampleRaw = .ok out ∧
      ∀ c ∈ out, c.name = "lead_time_days" →
        ∀ x ∈ c.cells, ∃ q, x = Cell.num q ∧ 0 ≤ q :=
  ⟨_, rfl, c4_lead_time_nonneg sampleLib sampleRaw _
    (by decide) (by decide) rfl⟩
